import Mathlib

/-!
Shallow embedding of the `backtrade` backtesting library.

Sources embedded here:
* `src/backtrade/order.py` — `OrderBase`, `LimitOrder`, `MarketOrder`.
* `src/backtrade/finished_order.py` — `FinishedOrderState`, `FinishedOrder`
  (an `attrs` class with `kw_only=True` and *no defaults*: every field is a
  required keyword-only constructor argument).
* `src/backtrade/logic.py` — `to_limit_order`, `process_buy_order`,
  `process_sell_order`, `process_order`.
* `src/backtrade/backtest/backtest.py` — argument validation in
  `Backtester.__call__`, the split handling in `Backtester._parrarel`, and the
  single-shard simulation loop.
* `src/backtrade/backtest/dtypes.py` — `BacktestResult.__add__` and
  `BacktestResult.__mul__`.

Modelling conventions:
* Python floats are modelled as `ℚ` (exact arithmetic; float rounding, NaN
  and infinity are outside the model, except where a NaN fee-rate sentinel is
  modelled explicitly as `Option ℚ` with `none` for NaN).
* Python exceptions are modelled with `Except PyErr`; an uncaught exception
  propagating out of a function is an `.error` result.
* `attrs`-generated keyword-only constructors are modelled by functions taking
  one `Option` per field: `some v` means the keyword was supplied with value
  `v`, `none` means it was omitted.  A call with a missing required field
  yields `TypeError` listing the missing field names in declaration order,
  as CPython does for missing required keyword-only arguments.
* In-place mutation of pandas Series (in `BacktestResult.__add__`) is modelled
  by explicit state passing: the function returns the post-call states of both
  operands together with the fresh result.
* The index type of bars/ledgers (generic `_IndexType` in the source) is
  fixed to `ℕ`.
-/

namespace Backtrade

/-- Python exceptions relevant to the embedded code. -/
inductive PyErr where
  /-- `ValueError(msg)` -/
  | valueError (msg : String)
  /-- `TypeError` for missing required keyword-only constructor arguments;
  carries the names of the missing fields in declaration order. -/
  | typeError (missingFields : List String)
  /-- `IndexError` (out-of-range positional access on a Series). -/
  | indexError
  /-- A failed `assert` statement. -/
  | assertionError
  deriving DecidableEq, Repr

/-- `order.py` — `LimitOrder(OrderBase)`: `size`, `price`, `post_only`. -/
structure LimitOrder where
  size : ℚ
  price : ℚ
  post_only : Bool
  deriving DecidableEq, Repr

/-- The union `LimitOrder | MarketOrder` (`_OrderType` in the source).
`MarketOrder` has only the inherited `size` field. -/
inductive Order where
  | limit (lo : LimitOrder)
  | market (size : ℚ)
  deriving DecidableEq, Repr

/-- `OrderBase.size`. -/
def Order.size : Order → ℚ
  | .limit lo => lo.size
  | .market s => s

/-- `finished_order.py` — `FinishedOrderState`. -/
inductive FinishedOrderState where
  | FilledTaker
  | FilledMaker
  | CancelledNotFilled
  | CancelledPostOnly
  deriving DecidableEq, Repr

/-- `finished_order.py` — `FinishedOrder`, with its seven declared fields in
declaration order.  `executed_price` is `float | None` in the source, hence
`Option ℚ` here. -/
structure FinishedOrder where
  index : ℕ
  order : Order
  balance_decrement : ℚ
  executed_price : Option ℚ
  quote_size : ℚ
  fee : ℚ
  state : FinishedOrderState
  deriving DecidableEq, Repr

/-- `FinishedOrder.filled` property:
`state in (FilledTaker, FilledMaker)`. -/
def FinishedOrder.filled (fo : FinishedOrder) : Bool :=
  fo.state = FinishedOrderState.FilledTaker ∨ fo.state = FinishedOrderState.FilledMaker

/-- The `attrs`-generated keyword-only constructor of `FinishedOrder`
(`@attrs.frozen(kw_only=True)`, no field has a default).  Each argument is
`some v` when the corresponding keyword was passed, `none` when omitted.
Omitting any field raises `TypeError` naming the missing required
keyword-only arguments in declaration order. -/
def mkFinishedOrder (index : Option ℕ) (order : Option Order)
    (balance_decrement : Option ℚ) (executed_price : Option (Option ℚ))
    (quote_size : Option ℚ) (fee : Option ℚ)
    (state : Option FinishedOrderState) : Except PyErr FinishedOrder :=
  match index, order, balance_decrement, executed_price, quote_size, fee, state with
  | some i, some o, some bd, some ep, some qs, some f, some st =>
      .ok { index := i, order := o, balance_decrement := bd, executed_price := ep,
            quote_size := qs, fee := f, state := st }
  | i, o, bd, ep, qs, f, st =>
      .error (.typeError (
        (if i.isNone then ["index"] else []) ++
        (if o.isNone then ["order"] else []) ++
        (if bd.isNone then ["balance_decrement"] else []) ++
        (if ep.isNone then ["executed_price"] else []) ++
        (if qs.isNone then ["quote_size"] else []) ++
        (if f.isNone then ["fee"] else []) ++
        (if st.isNone then ["state"] else [])))

/-- `logic.py` — `ToLimitOrderArgs`. -/
structure ToLimitOrderArgs where
  order : Order
  last_close : ℚ
  deriving Repr

/-- `logic.py` — `ProcessOrderArgsBase(ToLimitOrderArgs)`. -/
structure ProcessOrderArgsBase extends ToLimitOrderArgs where
  taker_fee : ℚ
  maker_fee : ℚ
  index : ℕ
  deriving Repr

/-- `logic.py` — `ProcessSellOrderArgs` adds `high`. -/
structure ProcessSellOrderArgs extends ProcessOrderArgsBase where
  high : ℚ
  deriving Repr

/-- `logic.py` — `ProcessBuyOrderArgs` adds `low`. -/
structure ProcessBuyOrderArgs extends ProcessOrderArgsBase where
  low : ℚ
  deriving Repr

/-- `logic.py` — `ProcessOrderArgs` combines the buy and sell argument sets
(`high` and `low`). -/
structure ProcessOrderArgs extends ProcessOrderArgsBase where
  high : ℚ
  low : ℚ
  deriving Repr

/-- `ProcessOrderArgs` restricted to the buy argument set. -/
def ProcessOrderArgs.toBuy (args : ProcessOrderArgs) : ProcessBuyOrderArgs :=
  { toProcessOrderArgsBase := args.toProcessOrderArgsBase, low := args.low }

/-- `ProcessOrderArgs` restricted to the sell argument set. -/
def ProcessOrderArgs.toSell (args : ProcessOrderArgs) : ProcessSellOrderArgs :=
  { toProcessOrderArgsBase := args.toProcessOrderArgsBase, high := args.high }

/-- `logic.py` — `to_limit_order`: a `LimitOrder` is returned unchanged; a
`MarketOrder` becomes a synthetic limit order with `price = last_close * 2`
for a buy, `price = last_close / 2` for a sell, `price = last_close` for size
zero, and `post_only=False`. -/
def to_limit_order (args : ToLimitOrderArgs) : LimitOrder :=
  match args.order with
  | .limit lo => lo
  | .market s =>
      { size := s,
        price :=
          if s > 0 then args.last_close * 2
          else if s < 0 then args.last_close / 2
          else args.last_close,
        post_only := false }

/-- `logic.py` — `process_buy_order`.  Each `FinishedOrder(...)` call in the
source passes exactly the keywords `index`, `order`, `balance_decrement`,
`fee`, `state`, and omits `executed_price` and `quote_size`; this is modelled
by passing `none` for the omitted fields to `mkFinishedOrder`. -/
def process_buy_order (args : ProcessBuyOrderArgs) : Except PyErr FinishedOrder :=
  if args.order.size ≤ 0 then
    .error (.valueError "Buy order size must be positive")
  else
    let limit_order := to_limit_order args.toToLimitOrderArgs
    if limit_order.price ≥ args.last_close then
      -- taker
      if limit_order.post_only then
        mkFinishedOrder (some args.index) (some args.order) (some 0)
          none none (some 0) (some .CancelledPostOnly)
      else
        mkFinishedOrder (some args.index) (some args.order)
          (some (args.order.size * args.last_close * (1 + args.taker_fee)))
          none none
          (some (args.order.size * args.last_close * args.taker_fee))
          (some .FilledTaker)
    else if limit_order.price ≥ args.low then
      mkFinishedOrder (some args.index) (some args.order)
        (some (args.order.size * limit_order.price * (1 + args.maker_fee)))
        none none
        (some (args.order.size * limit_order.price * args.maker_fee))
        (some .FilledMaker)
    else
      mkFinishedOrder (some args.index) (some args.order) (some 0)
        none none (some 0) (some .CancelledNotFilled)

/-- `logic.py` — `process_sell_order` (mirror of the buy path with `high`,
reversed comparisons, and `(1 - fee)` factors). -/
def process_sell_order (args : ProcessSellOrderArgs) : Except PyErr FinishedOrder :=
  if args.order.size ≥ 0 then
    .error (.valueError "Sell order size must be negative")
  else
    let limit_order := to_limit_order args.toToLimitOrderArgs
    if limit_order.price ≤ args.last_close then
      -- taker
      if limit_order.post_only then
        mkFinishedOrder (some args.index) (some args.order) (some 0)
          none none (some 0) (some .CancelledPostOnly)
      else
        mkFinishedOrder (some args.index) (some args.order)
          (some (args.order.size * args.last_close * (1 - args.taker_fee)))
          none none
          (some (args.order.size * args.last_close * args.taker_fee))
          (some .FilledTaker)
    else if limit_order.price ≤ args.high then
      mkFinishedOrder (some args.index) (some args.order)
        (some (args.order.size * limit_order.price * (1 - args.maker_fee)))
        none none
        (some (args.order.size * limit_order.price * args.maker_fee))
        (some .FilledMaker)
    else
      mkFinishedOrder (some args.index) (some args.order) (some 0)
        none none (some 0) (some .CancelledNotFilled)

/-- `logic.py` — `process_order`: dispatch on the sign of `order.size`;
zero size raises `ValueError("Order size must be non-zero", args.order)`. -/
def process_order (args : ProcessOrderArgs) : Except PyErr FinishedOrder :=
  if args.order.size > 0 then
    process_buy_order args.toBuy
  else if args.order.size < 0 then
    process_sell_order args.toSell
  else
    .error (.valueError "Order size must be non-zero")

/-- Scenario-A input (spec §8): buy limit `size=1, price=95, post_only=false`
on the bar `last_close=100, low=90, high=110`, `maker_fee=0.001`,
`taker_fee=0.002`. -/
def c1args : ProcessOrderArgs :=
  { order := Order.limit { size := 1, price := 95, post_only := false },
    last_close := 100, taker_fee := 2/1000, maker_fee := 1/1000,
    index := 0, high := 110, low := 90 }

/-- A representative non-zero-size order input for the missing-field claim. -/
def c2args : ProcessOrderArgs :=
  { order := Order.limit { size := 1, price := 105, post_only := false },
    last_close := 100, taker_fee := 2/1000, maker_fee := 1/1000,
    index := 3, high := 110, low := 90 }

/-- A market buy order of size `1` against `last_close=100` (a bar on which
the synthetic limit price `200` crosses the spread). -/
def c5args : ProcessOrderArgs :=
  { order := Order.market 1,
    last_close := 100, taker_fee := 2/1000, maker_fee := 1/1000,
    index := 0, high := 110, low := 90 }

/-- Scenario-C input (spec §8): post-only buy limit `size=1, price=105` on
the bar `last_close=100, low=90, high=110` — the price crosses the spread. -/
def c6args : ProcessOrderArgs :=
  { order := Order.limit { size := 1, price := 105, post_only := true },
    last_close := 100, taker_fee := 2/1000, maker_fee := 1/1000,
    index := 0, high := 110, low := 90 }

/-- A post-only sell limit whose price crosses the spread downward. -/
def c6argsSell : ProcessOrderArgs :=
  { order := Order.limit { size := -1, price := 95, post_only := true },
    last_close := 100, taker_fee := 2/1000, maker_fee := 1/1000,
    index := 0, high := 110, low := 90 }

/-! ## The single-shard simulation loop (`Backtester.__call__`, lines 219-317) -/

/-- One row of the validated input DataFrame: the bar key together with the
`open`, `high`, `low`, `close` columns. -/
structure Bar where
  index : ℕ
  open_ : ℚ
  high : ℚ
  low : ℚ
  close : ℚ
  deriving DecidableEq, Repr

/-- `backtest/dtypes.py` — `CloseData`: the snapshot handed to `on_close`. -/
structure CloseData where
  index : ℕ
  open_ : ℚ
  high : ℚ
  low : ℚ
  close : ℚ
  position : ℚ
  position_quote : ℚ
  balance_quote : ℚ
  equity_quote : ℚ
  deriving Repr

/-- The abstract strategy callback `Backtester.on_close`: given the snapshot
and the raw bar row, it yields the entire new carried-order set. -/
abbrev Strategy := CloseData → Bar → List Order

/-- The mutable run state of the loop: carried orders, previous close,
position and balance. -/
structure LoopState where
  open_orders : List Order
  last_close : Option ℚ
  position : ℚ
  balance : ℚ
  deriving Repr

/-- One recorded ledger row (the per-index entries of the history Series
built by `Backtester.__call__`). -/
structure LedgerRow where
  index : ℕ
  position : ℚ
  position_quote : ℚ
  balance_quote : ℚ
  equity_quote : ℚ
  finished_orders : List FinishedOrder
  deriving DecidableEq, Repr

/-- The order-resolution loop at the top of each bar
(`for order in open_orders:` in `Backtester.__call__`): assert that a
previous close exists, skip zero-size orders, otherwise resolve through
`process_order`, subtract `balance_decrement` from the balance, add
`order.size` to the position when the outcome is filled, and append the
finished order.  An uncaught exception aborts the run. -/
def resolveOrders (last_close : Option ℚ) (high low maker_fee taker_fee : ℚ)
    (index : ℕ) :
    List Order → ℚ → ℚ → Except PyErr (ℚ × ℚ × List FinishedOrder)
  | [], position, balance => .ok (position, balance, [])
  | o :: rest, position, balance =>
    match last_close with
    | none => .error .assertionError
    | some lc =>
      if o.size = 0 then
        resolveOrders last_close high low maker_fee taker_fee index rest
          position balance
      else do
        let fo ← process_order
          { order := o, last_close := lc, taker_fee := taker_fee,
            maker_fee := maker_fee, index := index, high := high, low := low }
        let balance' := balance - fo.balance_decrement
        let position' := if fo.filled then position + o.size else position
        let (position'', balance'', fos) ←
          resolveOrders last_close high low maker_fee taker_fee index rest
            position' balance'
        .ok (position'', balance'', fo :: fos)

/-- One iteration of the bar loop: resolve the carried orders, take the
snapshot (`equity = balance + position * open`), call the strategy to obtain
the entire replacement order set, record the ledger row, and set
`last_close` to the bar's close. -/
def barStep (strat : Strategy) (maker_fee taker_fee : ℚ) (st : LoopState)
    (bar : Bar) : Except PyErr (LoopState × LedgerRow) := do
  let (position, balance, finished_orders) ←
    resolveOrders st.last_close bar.high bar.low maker_fee taker_fee bar.index
      st.open_orders st.position st.balance
  let equity := balance + position * bar.open_
  let position_quote := position * bar.open_
  let new_orders := strat
    { index := bar.index, open_ := bar.open_, high := bar.high, low := bar.low,
      close := bar.close, position := position, position_quote := position_quote,
      balance_quote := balance, equity_quote := equity } bar
  .ok ({ open_orders := new_orders, last_close := some bar.close,
         position := position, balance := balance },
       { index := bar.index, position := position,
         position_quote := position_quote, balance_quote := balance,
         equity_quote := equity, finished_orders := finished_orders })

/-- The bar loop itself, producing the time-ordered ledger rows. -/
def runLoop (strat : Strategy) (maker_fee taker_fee : ℚ) :
    LoopState → List Bar → Except PyErr (List LedgerRow)
  | _, [] => .ok []
  | st, bar :: rest => do
    let (st', row) ← barStep strat maker_fee taker_fee st bar
    let rows ← runLoop strat maker_fee taker_fee st' rest
    .ok (row :: rows)

/-- The initial run state of a shard: `position = 0.0`,
`balance = balance_init`, no carried orders, no previous close. -/
def initState (balance_init : ℚ) : LoopState :=
  { open_orders := [], last_close := none, position := 0,
    balance := balance_init }

/-- The single-shard simulation (`Backtester.__call__` with `n_splits = 1`,
after validation). -/
def runBacktest (strat : Strategy) (maker_fee taker_fee balance_init : ℚ)
    (bars : List Bar) : Except PyErr (List LedgerRow) :=
  runLoop strat maker_fee taker_fee (initState balance_init) bars

/-- Sum of `order.size` over the filled finished orders of one list. -/
def filledSizeSum (fos : List FinishedOrder) : ℚ :=
  ((fos.filter (fun fo => fo.filled)).map (fun fo => fo.order.size)).sum

/-- Sum of `order.size` over all filled finished orders recorded in a ledger
prefix. -/
def ledgerFilledSizeSum (rows : List LedgerRow) : ℚ :=
  (rows.map (fun row => filledSizeSum row.finished_orders)).sum

/-- A zero-size order input for `process_order`. -/
def c7zeroArgs : ProcessOrderArgs :=
  { order := Order.market 0,
    last_close := 100, taker_fee := 2/1000, maker_fee := 1/1000,
    index := 0, high := 110, low := 90 }

/-- A strategy that never places orders. -/
def silentStrategy : Strategy := fun _ _ => []

/-- A one-bar input sequence for the run-level witnesses. -/
def c8bars : List Bar :=
  [{ index := 0, open_ := 2, high := 3, low := 1, close := 2 }]

/-! ## Keyed series and `BacktestResult` (`backtest/dtypes.py`)

A pandas `Series[float]` is modelled as a list of key/value pairs in index
order; a `none` value models NaN (as introduced by `reindex`).  The
presentation-only fields of `BacktestResult` (`name`, `close`, `freq`, the
joblib memories) and its metric/plot properties are independent of the
merged numeric series and are not part of the modelled fragment. -/

/-- A pandas float Series: key/value pairs in index order, `none` for NaN. -/
abbrev Series := List (ℕ × Option ℚ)

/-- The index (keys) of a series. -/
def seriesKeys (s : Series) : List ℕ := s.map Prod.fst

/-- Label-based lookup: `some v` when the key is present with value `v`
(possibly NaN), `none` when the key is absent (first occurrence wins; the
indexes handled here are duplicate-free). -/
def seriesLookup (s : Series) (k : ℕ) : Option (Option ℚ) :=
  match s with
  | [] => none
  | kv :: rest => if kv.fst = k then some kv.snd else seriesLookup rest k

/-- Insert a key into a sorted duplicate-free key list, keeping it sorted
and duplicate-free. -/
def insertKey (k : ℕ) : List ℕ → List ℕ
  | [] => [k]
  | a :: rest =>
    if k < a then k :: a :: rest
    else if k = a then a :: rest
    else a :: insertKey k rest

/-- `Index.union`: the sorted duplicate-free union of two key lists. -/
def unionKeys (ks1 ks2 : List ℕ) : List ℕ :=
  ks2.foldl (fun acc k => insertKey k acc)
    (ks1.foldl (fun acc k => insertKey k acc) [])

/-- `Series.reindex(new_index)`: keys absent from the series become NaN. -/
def reindex (s : Series) (new_index : List ℕ) : Series :=
  new_index.map (fun k => (k, (seriesLookup s k).join))

/-- Forward fill, carrying the last non-NaN value seen so far. -/
def ffillFrom (last : Option ℚ) : Series → Series
  | [] => []
  | (k, v) :: rest =>
    match v with
    | some x => (k, some x) :: ffillFrom (some x) rest
    | none => (k, last) :: ffillFrom last rest

/-- `Series.ffill()`. -/
def ffill (s : Series) : Series := ffillFrom none s

/-- `Series.bfill()`: forward fill on the reversed series. -/
def bfill (s : Series) : Series := (ffillFrom none s.reverse).reverse

/-- Pointwise `s1 + s2` on two series already aligned on the same index
(NaN propagates). -/
def addAligned (s1 s2 : Series) : Series :=
  List.zipWith
    (fun kv1 kv2 =>
      (kv1.fst,
        match kv1.snd, kv2.snd with
        | some x, some y => some (x + y)
        | _, _ => none))
    s1 s2

/-- `BacktestResult.__add__`'s inner helper `reindex_fill`: reindex both
series to the union of their indexes, then `ffill().bfill()` each. -/
def reindex_fill (s1 s2 : Series) : Series × Series :=
  let new_index := unionKeys (seriesKeys s1) (seriesKeys s2)
  (bfill (ffill (reindex s1 new_index)), bfill (ffill (reindex s2 new_index)))

/-- `BacktestResult.__add__`'s inner helper `add_fbfill`. -/
def add_fbfill (s1 s2 : Series) : Series :=
  let p := reindex_fill s1 s2
  addAligned p.1 p.2

/-- `BacktestResult.__add__`'s inner helper `add_fill0`:
`s1.add(s2, fill_value=0)` — union of the indexes, a key missing on one
side contributes the other side's value unchanged. -/
def add_fill0 (s1 s2 : Series) : Series :=
  (unionKeys (seriesKeys s1) (seriesKeys s2)).map (fun k =>
    (k,
      match seriesLookup s1 k, seriesLookup s2 k with
      | some v1, some v2 =>
        (match v1, v2 with
         | some x, some y => some (x + y)
         | _, _ => none)
      | some v1, none => v1
      | none, some v2 => v2
      | none, none => none))

/-- Overwrite the value at position `i`, keeping the key (no-op when out of
range; callers guard emptiness with an explicit `IndexError`). -/
def setValAt (s : Series) (i : ℕ) (v : Option ℚ) : Series :=
  match s.get? i with
  | some kv => s.set i (kv.fst, v)
  | none => s

/-- `series.iat[-1]` read: `IndexError` on an empty series. -/
def iatLast (s : Series) : Except PyErr (Option ℚ) :=
  match s.getLast? with
  | some kv => .ok kv.snd
  | none => .error .indexError

/-- `series.iat[0]` read: `IndexError` on an empty series. -/
def iatFirst (s : Series) : Except PyErr (Option ℚ) :=
  match s.head? with
  | some kv => .ok kv.snd
  | none => .error .indexError

/-- `series.iat[-1] = v` write. -/
def setIatLast (s : Series) (v : Option ℚ) : Except PyErr Series :=
  if s.isEmpty then .error .indexError
  else .ok (setValAt s (s.length - 1) v)

/-- `series.iat[0] = v` write. -/
def setIatFirst (s : Series) (v : Option ℚ) : Except PyErr Series :=
  if s.isEmpty then .error .indexError
  else .ok (setValAt s 0 v)

/-- `x == y` on floats where `none` models NaN: NaN compares unequal to
everything, including itself. -/
def floatEq : Option ℚ → Option ℚ → Bool
  | some x, some y => x = y
  | _, _ => false

/-- The value of a possibly-NaN float, meaningful only on non-NaN inputs
(NaN arithmetic is outside the model; every theorem that uses this assumes
the value is non-NaN). -/
def floatVal : Option ℚ → ℚ
  | some x => x
  | none => 0

/-- The first value of a series (`none` on an empty series). -/
def headVal (s : Series) : Option ℚ :=
  match s.head? with
  | some kv => kv.snd
  | none => none

/-- The last value of a series (`none` on an empty series). -/
def lastVal (s : Series) : Option ℚ :=
  match s.getLast? with
  | some kv => kv.snd
  | none => none

/-- The first key of a series. -/
def firstKey (s : Series) : Option ℕ := s.head?.map Prod.fst

/-- The last key of a series. -/
def lastKey (s : Series) : Option ℕ := s.getLast?.map Prod.fst

/-- `backtest/dtypes.py` — `BacktestResult`, restricted to the fields the
merge arithmetic touches.  `maker_fee_rate`/`taker_fee_rate` are floats that
may hold the `np.nan` "mixed" sentinel, modelled as `none`. -/
structure BacktestResult where
  position : Series
  position_quote : Series
  balance_quote : Series
  equity_quote : Series
  maker_fee_rate : Option ℚ
  taker_fee_rate : Option ℚ
  finished_orders : List FinishedOrder
  logarithmic : Bool
  deriving Repr

/-- `BacktestResult.__add__`.  The four `iat` assignments mutate the two
operands' `balance_quote` Series in place (`balance_quote_1`/`_2` alias
`self.balance_quote`/`other.balance_quote`); the returned triple is
(post-call `self`, post-call `other`, merged result), in source order:
`bq1.iat[-1] = self.equity.iat[-1]`, `bq2.iat[-1] = other.equity.iat[-1]`,
`bq1.iat[0] = self.equity.iat[0]`, `bq2.iat[0] = other.equity.iat[0]`. -/
def addResult (a b : BacktestResult) :
    Except PyErr (BacktestResult × BacktestResult × BacktestResult) :=
  if a.logarithmic ≠ b.logarithmic then
    .error (.valueError
      "Cannot add backtest results with different logarithmic settings")
  else do
    let e1last ← iatLast a.equity_quote
    let bq1 ← setIatLast a.balance_quote e1last
    let e2last ← iatLast b.equity_quote
    let bq2 ← setIatLast b.balance_quote e2last
    let e1first ← iatFirst a.equity_quote
    let bq1 ← setIatFirst bq1 e1first
    let e2first ← iatFirst b.equity_quote
    let bq2 ← setIatFirst bq2 e2first
    let merged : BacktestResult :=
      { position := add_fill0 a.position b.position,
        position_quote := add_fill0 a.position_quote b.position_quote,
        balance_quote := add_fbfill bq1 bq2,
        equity_quote := add_fbfill a.equity_quote b.equity_quote,
        maker_fee_rate :=
          if floatEq a.maker_fee_rate b.maker_fee_rate
          then a.maker_fee_rate else none,
        taker_fee_rate :=
          if floatEq a.taker_fee_rate b.taker_fee_rate
          then a.taker_fee_rate else none,
        finished_orders := a.finished_orders ++ b.finished_orders,
        logarithmic := a.logarithmic }
    .ok ({ a with balance_quote := bq1 },
         { b with balance_quote := bq2 },
         merged)

/-- The combined effect of the two in-place `iat` writes on one operand's
balance Series: last entry set to the equity Series' last value, then first
entry set to the equity Series' first value. -/
def forceSeries (bal eq : Series) : Series :=
  setValAt (setValAt bal (bal.length - 1) (lastVal eq)) 0 (headVal eq)

/-- `OrderBase.__mul__`: scalar-scaled copy, rejecting negative factors. -/
def orderScale (o : Order) (r : ℚ) : Except PyErr Order :=
  if r < 0 then .error (.valueError "Cannot multiply by negative number")
  else .ok (match o with
    | .limit lo => .limit { lo with size := lo.size * r }
    | .market s => .market (s * r))

/-- `FinishedOrder.__mul__`: scales `order`, `balance_decrement`,
`quote_size` and `fee`; rejects negative factors. -/
def finishedOrderScale (fo : FinishedOrder) (r : ℚ) :
    Except PyErr FinishedOrder :=
  if r < 0 then .error (.valueError "Cannot multiply by negative number")
  else do
    let o ← orderScale fo.order r
    .ok ({ fo with
      order := o
      balance_decrement := fo.balance_decrement * r
      quote_size := fo.quote_size * r
      fee := fo.fee * r })

/-- The pure value produced by `FinishedOrder.__mul__` for a non-negative
factor. -/
def scaleFinishedOrder (fo : FinishedOrder) (r : ℚ) : FinishedOrder :=
  { fo with
    order :=
      (match fo.order with
       | .limit lo => .limit { lo with size := lo.size * r }
       | .market s => .market (s * r)),
    balance_decrement := fo.balance_decrement * r,
    quote_size := fo.quote_size * r, fee := fo.fee * r }

/-- Elementwise `Series * float` (NaN propagates). -/
def seriesScale (s : Series) (r : ℚ) : Series :=
  s.map (fun kv => (kv.fst, kv.snd.map (fun x => x * r)))

/-- Elementwise `Series - float` (NaN propagates). -/
def seriesSubScalar (s : Series) (c : ℚ) : Series :=
  s.map (fun kv => (kv.fst, kv.snd.map (fun x => x - c)))

/-- `BacktestResult.__mul__`: `attrs.evolve` with the four curve Series and
every finished order scaled; `close` and the fee-rate metadata are left
unchanged; negative factors are rejected. -/
def mulResult (res : BacktestResult) (r : ℚ) : Except PyErr BacktestResult :=
  if r < 0 then .error (.valueError "Cannot multiply by negative number")
  else do
    let fos ← res.finished_orders.mapM (fun fo => finishedOrderScale fo r)
    .ok { res with
      position := seriesScale res.position r,
      position_quote := seriesScale res.position_quote r,
      balance_quote := seriesScale res.balance_quote r,
      equity_quote := seriesScale res.equity_quote r,
      finished_orders := fos }

/-- One logarithmic-mode reduction step of `Backtester._parrarel`:
`x + y * (x.equity_quote[-1] / y.equity_quote[0])` (positional end access,
as with a datetime index).  Returns the same (post-call `x`, post-call
scaled `y`, merged) triple as `addResult`. -/
def logMergeStep (x y : BacktestResult) :
    Except PyErr (BacktestResult × BacktestResult × BacktestResult) := do
  let xl ← iatLast x.equity_quote
  let yf ← iatFirst y.equity_quote
  let y' ← mulResult y (floatVal xl / floatVal yf)
  addResult x y'

/-- `Backtester._parrarel` for two shards: logarithmic mode reduces with
`logMergeStep`; linear mode reduces with plain `+` and then subtracts
`balance_init * (n_splits - 1)` from the merged equity and balance curves. -/
def parrarelCombine (r1 r2 : BacktestResult) (balance_init : ℚ)
    (logarithmic : Bool) : Except PyErr BacktestResult :=
  if logarithmic then do
    let (_, _, m) ← logMergeStep r1 r2
    .ok m
  else do
    let (_, _, m) ← addResult r1 r2
    .ok { m with
      equity_quote := seriesSubScalar m.equity_quote (balance_init * (2 - 1)),
      balance_quote := seriesSubScalar m.balance_quote (balance_init * (2 - 1)) }

/-- Keywise restatement of the seam forcing the code performs on one
operand: the balance value at the series' first key becomes the equity
Series' first value, the value at its last key becomes the equity Series'
last value (the first-key write wins when the series has a single entry,
because it happens second), and every other key keeps its balance value. -/
def forcedBalanceLookup (bal eq : Series) (k : ℕ) : Option (Option ℚ) :=
  if firstKey bal = some k then some (headVal eq)
  else if lastKey bal = some k then some (lastVal eq)
  else seriesLookup bal k

/-- The merged `balance_quote` exactly as claim C3 words it: force *only*
A's balance at its last key to A's equity there and B's balance at its
first key to B's equity there, then reindex both to the union of the key
sets, forward-fill, backward-fill, and add. -/
def claimC3MergedBalance (a b : BacktestResult) : Series :=
  add_fbfill
    (setValAt a.balance_quote (a.balance_quote.length - 1)
      (lastVal a.equity_quote))
    (setValAt b.balance_quote 0 (headVal b.equity_quote))

/-- Earlier-shard ledger for the merge counterexamples: keys 0 and 1,
balance `[10, 20]`, equity `[11, 21]`. -/
def c3A : BacktestResult :=
  { position := [(0, some 0), (1, some 1)],
    position_quote := [(0, some 0), (1, some 2)],
    balance_quote := [(0, some 10), (1, some 20)],
    equity_quote := [(0, some 11), (1, some 21)],
    maker_fee_rate := some (1/1000), taker_fee_rate := some (2/1000),
    finished_orders := [], logarithmic := false }

/-- Later-shard ledger for the merge counterexamples: keys 2 and 3,
balance `[30, 40]`, equity `[31, 41]`. -/
def c3B : BacktestResult :=
  { position := [(2, some 1), (3, some 0)],
    position_quote := [(2, some 2), (3, some 0)],
    balance_quote := [(2, some 30), (3, some 40)],
    equity_quote := [(2, some 31), (3, some 41)],
    maker_fee_rate := some (1/1000), taker_fee_rate := some (2/1000),
    finished_orders := [], logarithmic := false }

/-- Earlier shard for the C4 counterexample: last equity value `2`. -/
def c4A : BacktestResult :=
  { position := [(0, some 0)],
    position_quote := [(0, some 0)],
    balance_quote := [(0, some 2)],
    equity_quote := [(0, some 2)],
    maker_fee_rate := some (1/1000), taker_fee_rate := some (2/1000),
    finished_orders := [], logarithmic := true }

/-- Later shard for the C4 counterexample: first equity value `1`, one
finished order with `fee = 5`, `size = 1`, `quote_size = 7`. -/
def c4B : BacktestResult :=
  { position := [(1, some 1)],
    position_quote := [(1, some 3)],
    balance_quote := [(1, some 1)],
    equity_quote := [(1, some 1)],
    maker_fee_rate := some (1/1000), taker_fee_rate := some (2/1000),
    finished_orders :=
      [{ index := 1, order := Order.limit { size := 1, price := 3, post_only := false },
         balance_decrement := 3, executed_price := some 3, quote_size := 7,
         fee := 5, state := FinishedOrderState.FilledMaker }],
    logarithmic := true }

/-- Earlier-shard ledger for the C10 witness. -/
def c10A : BacktestResult :=
  { position := [(0, some 0), (1, some 1)],
    position_quote := [(0, some 0), (1, some 2)],
    balance_quote := [(0, some 100), (1, some 200)],
    equity_quote := [(0, some 101), (1, some 201)],
    maker_fee_rate := some (1/1000), taker_fee_rate := some (2/1000),
    finished_orders := [], logarithmic := true }

/-- Later-shard ledger for the C10 witness. -/
def c10B : BacktestResult :=
  { position := [(2, some 1), (3, some 0)],
    position_quote := [(2, some 2), (3, some 0)],
    balance_quote := [(2, some 300), (3, some 400)],
    equity_quote := [(2, some 301), (3, some 401)],
    maker_fee_rate := some (1/1000), taker_fee_rate := some (2/1000),
    finished_orders := [], logarithmic := true }

/-! ## Input validation and split dispatch
(`Backtester.__call__` lines 155-217, `Backtester._parrarel` lines 69-77) -/

/-- One row of the raw input DataFrame (the four price columns). -/
structure BarRow where
  open_ : ℚ
  high : ℚ
  low : ℚ
  close : ℚ
  deriving DecidableEq, Repr

/-- The raw input table, with the column-presence facts the validation
inspects: whether the lower-case `open/close/high/low` columns exist, and
whether the capitalised `Open/Close/High/Low` fallback columns exist. -/
structure InputDF where
  has_lower_cols : Bool
  has_upper_cols : Bool
  keys : List ℕ
  rows : List BarRow
  deriving DecidableEq, Repr

/-- `df.index.is_monotonic_increasing` (non-strict). -/
def keysMonotonic : List ℕ → Bool
  | [] => true
  | [_] => true
  | a :: b :: rest => a ≤ b && keysMonotonic (b :: rest)

/-- `df.index.is_unique`. -/
def keysUnique : List ℕ → Bool
  | [] => true
  | a :: rest => !rest.contains a && keysUnique rest

/-- The nine price checks of `Backtester.__call__`, in source order; each
appends one message when any row violates it. -/
def priceErrors (rows : List BarRow) : List String :=
  (if rows.any (fun r => decide (r.open_ > r.high))
    then ["open price must be less than high price"] else []) ++
  (if rows.any (fun r => decide (r.open_ < r.low))
    then ["open price must be greater than low price"] else []) ++
  (if rows.any (fun r => decide (r.close > r.high))
    then ["close price must be less than high price"] else []) ++
  (if rows.any (fun r => decide (r.close < r.low))
    then ["close price must be greater than low price"] else []) ++
  (if rows.any (fun r => decide (r.high < r.low))
    then ["high price must be greater than low price"] else []) ++
  (if rows.any (fun r => decide (r.open_ ≤ 0))
    then ["open price must be greater than 0"] else []) ++
  (if rows.any (fun r => decide (r.close ≤ 0))
    then ["close price must be greater than 0"] else []) ++
  (if rows.any (fun r => decide (r.high ≤ 0))
    then ["high price must be greater than 0"] else []) ++
  (if rows.any (fun r => decide (r.low ≤ 0))
    then ["low price must be greater than 0"] else [])

/-- The aggregated `errors` list of `Backtester.__call__`: the missing-column
check (with the capitalised fallback), the price checks (run only when no
column error was recorded, mirroring `if not errors:`), the index
monotonicity and uniqueness checks, and the `balance_init` check. -/
def validationErrors (df : InputDF) (balance_init : ℚ) : List String :=
  let columnErrors :=
    if df.has_lower_cols then []
    else if df.has_upper_cols then []
    else ["df must have columns open close high low"]
  let priceErrs := if columnErrors = [] then priceErrors df.rows else []
  columnErrors ++ priceErrs ++
  (if keysMonotonic df.keys then []
    else ["index must be monotonic increasing"]) ++
  (if keysUnique df.keys then [] else ["index must be unique"]) ++
  (if balance_init > 0 then []
    else ["balance_init must be greater than 0"])

/-- The observable ways `Backtester.__call__` leaves its argument-checking
and dispatch phase, before any simulation work. -/
inductive CallOutcome where
  /-- the aggregated `ExceptionGroup` of structural validation errors -/
  | exceptionGroup (errs : List String)
  /-- a standalone `ValueError` raised by `_parrarel`'s split-count checks -/
  | splitValueError (msg : String)
  /-- `n_splits == 1`: proceed with the single-shard simulation -/
  | proceedSingle
  /-- `n_splits != 1` and valid: proceed with the resolved shard count -/
  | proceedParallel (resolved : ℤ)
  deriving DecidableEq, Repr

/-- The argument-checking and dispatch phase of `Backtester.__call__`
together with `_parrarel`'s split-count checks: returns the outcome and
whether the non-positive-`taker_fee` warning was issued (`warnings.warn`
fires before the aggregated raise).  `cpu_count` models
`joblib.parallel.cpu_count()`. -/
def checkCall (df : InputDF) (balance_init taker_fee : ℚ) (n_splits : ℤ)
    (cpu_count : ℕ) : CallOutcome × Bool :=
  let errs := validationErrors df balance_init
  let warned := !(decide (taker_fee > 0))
  if errs ≠ [] then (.exceptionGroup errs, warned)
  else if n_splits ≠ 1 then
    if n_splits = 0 then (.splitValueError "n_splits must be not 0", warned)
    else if n_splits < -(cpu_count : ℤ) then
      (.splitValueError "n_splits must be greater than -cpu_count", warned)
    else
      (.proceedParallel
        (if n_splits < 0 then (cpu_count : ℤ) + n_splits + 1 else n_splits),
       warned)
  else (.proceedSingle, warned)

/-- A structurally valid two-row input table. -/
def c9df : InputDF :=
  { has_lower_cols := true, has_upper_cols := false,
    keys := [0, 1],
    rows := [{ open_ := 1, high := 1, low := 1, close := 1 },
             { open_ := 1, high := 1, low := 1, close := 1 }] }

/-- An input table with a structural violation (non-monotonic index). -/
def c9badDf : InputDF :=
  { has_lower_cols := true, has_upper_cols := false,
    keys := [1, 0],
    rows := [{ open_ := 1, high := 1, low := 1, close := 1 },
             { open_ := 1, high := 1, low := 1, close := 1 }] }

section MatcherTheorems

/-- Helper: for positive size, every branch of `process_buy_order` constructs
a `FinishedOrder` without `executed_price` and `quote_size`, so the call
raises `TypeError` naming those two fields. -/
theorem process_buy_order_missing_fields (args : ProcessBuyOrderArgs)
    (h : 0 < args.order.size) :
    process_buy_order args =
      .error (.typeError ["executed_price", "quote_size"]) := by
  unfold process_buy_order
  rw [if_neg (not_le.mpr h)]
  dsimp only
  split
  · split <;> simp [mkFinishedOrder]
  · split <;> simp [mkFinishedOrder]

/-- Helper: mirror statement for `process_sell_order`. -/
theorem process_sell_order_missing_fields (args : ProcessSellOrderArgs)
    (h : args.order.size < 0) :
    process_sell_order args =
      .error (.typeError ["executed_price", "quote_size"]) := by
  unfold process_sell_order
  rw [if_neg (not_le.mpr h)]
  dsimp only
  split
  · split <;> simp [mkFinishedOrder]
  · split <;> simp [mkFinishedOrder]

/-- Helper: `process_order` never returns a `FinishedOrder`: it raises
`ValueError` on zero size and a missing-required-argument `TypeError`
otherwise. -/
theorem process_order_eq_error (args : ProcessOrderArgs) :
    process_order args =
      .error (if args.order.size = 0
        then PyErr.valueError "Order size must be non-zero"
        else PyErr.typeError ["executed_price", "quote_size"]) := by
  rcases lt_trichotomy args.order.size 0 with h | h | h
  · rw [if_neg h.ne]
    unfold process_order
    rw [if_neg (by simpa using h.le), if_pos (by simpa using h)]
    exact process_sell_order_missing_fields args.toSell h
  · rw [if_pos h]
    unfold process_order
    rw [if_neg (by simp [h]), if_neg (by simp [h])]
  · rw [if_neg h.ne']
    unfold process_order
    rw [if_pos (by simpa using h)]
    exact process_buy_order_missing_fields args.toBuy h

/-- C2: every `FinishedOrder` constructed inside `process_buy_order` and
`process_sell_order` supplies only `index`, `order`, `balance_decrement`,
`fee` and `state`, while `FinishedOrder` declares `executed_price` and
`quote_size` as required keyword-only fields with no defaults; therefore
every call of `process_order` on an order with non-zero size raises a
missing-argument `TypeError` (naming exactly those two fields) on every
branch, instead of returning a `FinishedOrder` outcome. -/
theorem c2_process_order_missing_required_fields (args : ProcessOrderArgs)
    (h : args.order.size ≠ 0) :
    process_order args = .error (.typeError ["executed_price", "quote_size"]) := by
  have heq := process_order_eq_error args
  rwa [if_neg h] at heq

/-- Witness for C2 at the concrete non-zero-size input `c2args`. -/
theorem c2_witness : c2args.order.size ≠ 0 ∧
    process_order c2args = .error (.typeError ["executed_price", "quote_size"]) :=
  ⟨by decide, c2_process_order_missing_required_fields c2args (by decide)⟩

/-- C1: the claimed case analysis (`FilledTaker`/`FilledMaker`/
`CancelledNotFilled` outcomes with the stated fees and balance decrements)
never materialises: at the spec's own Scenario-A input — a limit buy of size
`1` at price `95` on the bar `last_close=100, low=90`, which the claim says
returns `FilledMaker` with `fee=0.095` and `balance_decrement=95.095` — the
code raises `TypeError` for the missing required keyword-only arguments
`executed_price` and `quote_size` instead of returning any outcome. -/
theorem c1_scenario_a_raises_instead_of_filling :
    process_order c1args = .error (.typeError ["executed_price", "quote_size"]) := by
  have heq := process_order_eq_error c1args
  rwa [if_neg (by decide : ¬c1args.order.size = 0)] at heq

/-- C5: the market-to-limit conversion does set the synthetic price to
`last_close * 2` for a buy and `last_close / 2` for a sell with `post_only`
forced false; but the claimed consequence fails: a market order with
non-zero size and positive `last_close` does not resolve `FilledTaker` —
`process_order` raises the missing-required-argument `TypeError` in the
taker branch, as shown at the concrete market buy `c5args`. -/
theorem c5_market_synthetic_price_but_raises :
    (∀ s c : ℚ,
      to_limit_order { order := Order.market s, last_close := c } =
        { size := s,
          price := if s > 0 then c * 2 else if s < 0 then c / 2 else c,
          post_only := false }) ∧
    process_order c5args = .error (.typeError ["executed_price", "quote_size"]) := by
  constructor
  · intro s c; rfl
  · have heq := process_order_eq_error c5args
    rwa [if_neg (by decide : ¬c5args.order.size = 0)] at heq

/-- C6: a post-only limit order whose price crosses the spread at the
reference price does not return `CancelledPostOnly` with zero fee and zero
balance decrement: the `CancelledPostOnly` branch also constructs
`FinishedOrder` without the required `executed_price` and `quote_size`
fields, so `process_order` raises `TypeError` instead — shown at the spec's
Scenario-C input (buy, `price=105 ≥ last_close=100`, post-only) and at the
mirrored sell input (`price=95 ≤ last_close=100`, post-only). -/
theorem c6_post_only_crossing_raises :
    process_order c6args = .error (.typeError ["executed_price", "quote_size"]) ∧
    process_order c6argsSell = .error (.typeError ["executed_price", "quote_size"]) := by
  constructor
  · have heq := process_order_eq_error c6args
    rwa [if_neg (by decide : ¬c6args.order.size = 0)] at heq
  · have heq := process_order_eq_error c6argsSell
    rwa [if_neg (by decide : ¬c6argsSell.order.size = 0)] at heq

end MatcherTheorems

section LoopTheorems

/-- Helper: `ledgerFilledSizeSum` distributes over `cons`. -/
theorem ledgerFilledSizeSum_cons (row : LedgerRow) (rows : List LedgerRow) :
    ledgerFilledSizeSum (row :: rows) =
      filledSizeSum row.finished_orders + ledgerFilledSizeSum rows := by
  simp [ledgerFilledSizeSum]

/-- Helper: on success, the resolution loop moves the position by exactly the
sum of `order.size` over the filled finished orders it emitted. -/
theorem resolveOrders_position (lc : Option ℚ) (high low mf tf : ℚ) (idx : ℕ) :
    ∀ (orders : List Order) (pos bal pos' bal' : ℚ) (fos : List FinishedOrder),
      resolveOrders lc high low mf tf idx orders pos bal = .ok (pos', bal', fos) →
      pos' = pos + filledSizeSum fos := by
  intro orders
  induction orders with
  | nil =>
    intro pos bal pos' bal' fos h
    simp only [resolveOrders] at h
    obtain ⟨h1, _, h3⟩ := by simpa using h
    subst h1
    subst h3
    simp [filledSizeSum]
  | cons o rest ih =>
    intro pos bal pos' bal' fos h
    cases lc with
    | none => simp [resolveOrders] at h
    | some c =>
      by_cases h0 : o.size = 0
      · simp only [resolveOrders, if_pos h0] at h
        exact ih pos bal pos' bal' fos h
      · have hpo := process_order_eq_error
          { order := o, last_close := c, taker_fee := tf, maker_fee := mf,
            index := idx, high := high, low := low }
        rw [if_neg h0] at hpo
        simp only [resolveOrders, if_neg h0] at h
        rw [hpo] at h
        simp [bind, Except.bind] at h

/-- Helper: on success, one bar step records the resolved position and moves
the carried position by the filled sizes of the emitted finished orders. -/
theorem barStep_position (strat : Strategy) (mf tf : ℚ) (st : LoopState)
    (bar : Bar) (st' : LoopState) (row : LedgerRow)
    (h : barStep strat mf tf st bar = .ok (st', row)) :
    st'.position = st.position + filledSizeSum row.finished_orders ∧
    row.position = st'.position := by
  unfold barStep at h
  rcases hres : resolveOrders st.last_close bar.high bar.low mf tf bar.index
      st.open_orders st.position st.balance with e | ⟨pos, bal, fos⟩
  · rw [hres] at h
    simp [bind, Except.bind] at h
  · rw [hres] at h
    simp only [bind, Except.bind] at h
    obtain ⟨hst, hrow⟩ := by simpa using h
    have hpos := resolveOrders_position st.last_close bar.high bar.low mf tf
      bar.index st.open_orders st.position st.balance pos bal fos hres
    constructor
    · rw [← hst, ← hrow]
      simpa using hpos
    · rw [← hst, ← hrow]

/-- Helper: the run-level position invariant, generalised over the starting
state. -/
theorem runLoop_position_invariant (strat : Strategy) (mf tf : ℚ) :
    ∀ (bars : List Bar) (st : LoopState) (rows : List LedgerRow),
      runLoop strat mf tf st bars = .ok rows →
      ∀ i (hi : i < rows.length),
        (rows.get ⟨i, hi⟩).position =
          st.position + ledgerFilledSizeSum (rows.take (i + 1)) := by
  intro bars
  induction bars with
  | nil =>
    intro st rows h i hi
    simp only [runLoop] at h
    obtain rfl : ([] : List LedgerRow) = rows := by simpa using h
    simp at hi
  | cons bar rest ih =>
    intro st rows h i hi
    simp only [runLoop] at h
    rcases hstep : barStep strat mf tf st bar with e | ⟨st', row⟩
    · rw [hstep] at h
      simp [bind, Except.bind] at h
    · rw [hstep] at h
      simp only [bind, Except.bind] at h
      rcases hrest : runLoop strat mf tf st' rest with e | rows'
      · rw [hrest] at h
        simp at h
      · rw [hrest] at h
        obtain rfl : row :: rows' = rows := by simpa using h
        obtain ⟨hst', hrow⟩ := barStep_position strat mf tf st bar st' row hstep
        cases i with
        | zero =>
          simp [ledgerFilledSizeSum_cons, ledgerFilledSizeSum, hrow, hst']
        | succ n =>
          have hn : n < rows'.length := by simpa using hi
          have hinv := ih st' rows' hrest n hn
          simp only [List.get_cons_succ, List.take_succ_cons,
            ledgerFilledSizeSum_cons] at hinv ⊢
          rw [hinv, hst']
          ring

/-- C7: `process_order` fails with the invalid-order `ValueError` exactly
when `order.size == 0`, and the simulation loop filters zero-size carried
orders before calling the matcher: with a previous close available (which
always holds once carried orders exist), removing a zero-size order from
anywhere in the carried-order set leaves the resolution result — position,
balance and emitted finished orders — unchanged. -/
theorem c7_zero_size_orders (args : ProcessOrderArgs) (lc high low mf tf : ℚ)
    (idx : ℕ) (l₁ l₂ : List Order) (o : Order) (position balance : ℚ)
    (h0 : o.size = 0) :
    (process_order args = .error (.valueError "Order size must be non-zero") ↔
      args.order.size = 0) ∧
    resolveOrders (some lc) high low mf tf idx (l₁ ++ o :: l₂)
        position balance =
      resolveOrders (some lc) high low mf tf idx (l₁ ++ l₂)
        position balance := by
  constructor
  · constructor
    · intro h
      by_contra hne
      rw [process_order_eq_error args, if_neg hne] at h
      simp at h
    · intro h
      rw [process_order_eq_error args, if_pos h]
  · induction l₁ generalizing position balance with
    | nil =>
      simp only [List.nil_append, resolveOrders, if_pos h0]
    | cons a l₁ ih =>
      simp only [List.cons_append, resolveOrders]
      by_cases ha : a.size = 0
      · rw [if_pos ha, if_pos ha]
        exact ih position balance
      · rw [if_neg ha, if_neg ha]
        have hpo := process_order_eq_error
          { order := a, last_close := lc, taker_fee := tf, maker_fee := mf,
            index := idx, high := high, low := low }
        rw [if_neg ha] at hpo
        rw [hpo]
        rfl

/-- Witness for C7: `process_order` rejects a concrete zero-size order with
the invalid-order `ValueError`, and dropping a concrete zero-size carried
order from the carried-order set does not change the resolution result. -/
theorem c7_witness :
    (Order.market 0).size = 0 ∧
    process_order c7zeroArgs = .error (.valueError "Order size must be non-zero") ∧
    resolveOrders (some 100) 110 90 (1/1000) (2/1000) 0
        ([] ++ Order.market 0 :: []) 0 1 =
      resolveOrders (some 100) 110 90 (1/1000) (2/1000) 0 ([] ++ []) 0 1 :=
  ⟨by decide,
   (c7_zero_size_orders c7zeroArgs 100 110 90 (1/1000) (2/1000) 0 [] []
      (Order.market 0) 0 1 (by decide)).1.mpr (by decide),
   (c7_zero_size_orders c7zeroArgs 100 110 90 (1/1000) (2/1000) 0 [] []
      (Order.market 0) 0 1 (by decide)).2⟩

/-- C8: throughout a single-shard run, after every bar the recorded position
equals the initial position `0` plus the sum of `order.size` over all filled
finished orders emitted so far (position changes only through filled
finished orders, by exactly `order.size`). -/
theorem c8_position_is_sum_of_filled_sizes (strat : Strategy)
    (mf tf binit : ℚ) (bars : List Bar) (rows : List LedgerRow)
    (h : runBacktest strat mf tf binit bars = .ok rows)
    (i : ℕ) (hi : i < rows.length) :
    (rows.get ⟨i, hi⟩).position = ledgerFilledSizeSum (rows.take (i + 1)) := by
  have hinv := runLoop_position_invariant strat mf tf bars (initState binit)
    rows h i hi
  simpa [initState] using hinv

/-- Witness for C8: a concrete one-bar run with a silent strategy completes,
and the theorem applies to its recorded row. -/
theorem c8_witness :
    runBacktest silentStrategy (1/1000) (2/1000) 1 c8bars =
      .ok [{ index := 0, position := 0, position_quote := 0, balance_quote := 1,
             equity_quote := 1, finished_orders := [] }] ∧
    (([{ index := 0, position := 0, position_quote := 0, balance_quote := 1,
         equity_quote := 1, finished_orders := [] }] : List LedgerRow).get
        ⟨0, by decide⟩).position =
      ledgerFilledSizeSum
        (([{ index := 0, position := 0, position_quote := 0, balance_quote := 1,
             equity_quote := 1, finished_orders := [] }] : List LedgerRow).take 1) := by
  have hrun : runBacktest silentStrategy (1/1000) (2/1000) 1 c8bars =
      .ok [{ index := 0, position := 0, position_quote := 0, balance_quote := 1,
             equity_quote := 1, finished_orders := [] }] := by
    simp [runBacktest, runLoop, barStep, resolveOrders, initState,
      silentStrategy, c8bars, bind, Except.bind]
  exact ⟨hrun,
    c8_position_is_sum_of_filled_sizes silentStrategy (1/1000) (2/1000) 1
      c8bars _ hrun 0 (by decide)⟩

end LoopTheorems

section MergeTheorems

/-- Helper: overwriting one position never changes the length. -/
theorem setValAt_length (s : Series) (i : ℕ) (v : Option ℚ) :
    (setValAt s i v).length = s.length := by
  unfold setValAt
  split
  · simp
  · rfl

/-- Helper: overwriting one position never changes emptiness. -/
theorem setValAt_ne_nil (s : Series) (i : ℕ) (v : Option ℚ) (h : s ≠ []) :
    setValAt s i v ≠ [] := by
  intro hnil
  have hlen := setValAt_length s i v
  rw [hnil] at hlen
  exact h (List.length_eq_zero.mp hlen.symm)

/-- Helper: `addResult` on operands with the same mode flag and non-empty
balance/equity Series succeeds, returning the two operands with their
balance Series end-forced and the merged result built from those forced
Series. -/
theorem addResult_ok (a b : BacktestResult)
    (hlog : a.logarithmic = b.logarithmic)
    (hba : a.balance_quote ≠ []) (hea : a.equity_quote ≠ [])
    (hbb : b.balance_quote ≠ []) (heb : b.equity_quote ≠ []) :
    addResult a b = .ok
      ({ a with balance_quote := forceSeries a.balance_quote a.equity_quote },
       { b with balance_quote := forceSeries b.balance_quote b.equity_quote },
       { position := add_fill0 a.position b.position,
         position_quote := add_fill0 a.position_quote b.position_quote,
         balance_quote :=
           add_fbfill (forceSeries a.balance_quote a.equity_quote)
             (forceSeries b.balance_quote b.equity_quote),
         equity_quote := add_fbfill a.equity_quote b.equity_quote,
         maker_fee_rate :=
           if floatEq a.maker_fee_rate b.maker_fee_rate
           then a.maker_fee_rate else none,
         taker_fee_rate :=
           if floatEq a.taker_fee_rate b.taker_fee_rate
           then a.taker_fee_rate else none,
         finished_orders := a.finished_orders ++ b.finished_orders,
         logarithmic := a.logarithmic }) := by
  obtain ⟨la, hLa⟩ := Option.ne_none_iff_exists'.mp
    (fun h => hea (List.getLast?_eq_none_iff.mp h))
  obtain ⟨lb, hLb⟩ := Option.ne_none_iff_exists'.mp
    (fun h => heb (List.getLast?_eq_none_iff.mp h))
  obtain ⟨fa, hFa⟩ := Option.ne_none_iff_exists'.mp
    (fun h => hea (List.head?_eq_none_iff.mp h))
  obtain ⟨fb, hFb⟩ := Option.ne_none_iff_exists'.mp
    (fun h => heb (List.head?_eq_none_iff.mp h))
  have hba1 : (setValAt a.balance_quote (a.balance_quote.length - 1) la.2).isEmpty = false :=
    List.isEmpty_eq_false.mpr (setValAt_ne_nil _ _ _ hba)
  have hbb1 : (setValAt b.balance_quote (b.balance_quote.length - 1) lb.2).isEmpty = false :=
    List.isEmpty_eq_false.mpr (setValAt_ne_nil _ _ _ hbb)
  unfold addResult
  rw [if_neg (by simp [hlog])]
  simp only [iatLast, iatFirst, setIatLast, setIatFirst, hLa, hLb, hFa, hFb,
    List.isEmpty_eq_false.mpr hba, List.isEmpty_eq_false.mpr hbb, hba1, hbb1,
    bind, Except.bind, Bool.false_eq_true, if_false,
    setValAt_length]
  simp [forceSeries, lastVal, headVal, hLa, hLb, hFa, hFb]

/-- Helper: reading the overwritten position. -/
theorem setValAt_getElem_self (s : Series) (i : ℕ) (v : Option ℚ)
    (hi : i < s.length) :
    (setValAt s i v)[i]? = some ((s.get ⟨i, hi⟩).fst, v) := by
  unfold setValAt
  have h : s.get? i = some (s.get ⟨i, hi⟩) := List.get?_eq_get hi
  rw [h]
  rw [List.getElem?_set_self (by simpa using hi)]

/-- Helper: reading any other position. -/
theorem setValAt_getElem_ne (s : Series) (i j : ℕ) (v : Option ℚ)
    (h : i ≠ j) : (setValAt s i v)[j]? = s[j]? := by
  unfold setValAt
  split
  · exact List.getElem?_set_ne h
  · rfl

/-- Helper: positional description of the end-forced balance Series:
position `0` carries the equity head value, the last position the equity
last value (head wins on a singleton, being written second), and every
other position is untouched; all keys are preserved. -/
theorem forceSeries_getElem (bal eq : Series) (i : ℕ) (hi : i < bal.length) :
    (forceSeries bal eq)[i]? = some
      ((bal.get ⟨i, hi⟩).fst,
        if i = 0 then headVal eq
        else if i = bal.length - 1 then lastVal eq
        else (bal.get ⟨i, hi⟩).snd) := by
  unfold forceSeries
  by_cases h0 : i = 0
  · subst h0
    by_cases hlast : bal.length - 1 = 0
    · rw [hlast]
      have hlen0 : 0 < (setValAt bal 0 (lastVal eq)).length := by
        rw [setValAt_length]; exact hi
      rw [setValAt_getElem_self _ 0 (headVal eq) hlen0]
      have hval : (setValAt bal 0 (lastVal eq)).get ⟨0, hlen0⟩ =
          ((bal.get ⟨0, hi⟩).fst, lastVal eq) := by
        have h1 := setValAt_getElem_self bal 0 (lastVal eq) hi
        rw [List.getElem?_eq_getElem hlen0] at h1
        simpa [List.get_eq_getElem] using h1
      rw [hval]
      simp
    · have hlen0 : 0 < (setValAt bal (bal.length - 1) (lastVal eq)).length := by
        rw [setValAt_length]; exact hi
      rw [setValAt_getElem_self _ 0 (headVal eq) hlen0]
      have hval : (setValAt bal (bal.length - 1) (lastVal eq)).get ⟨0, hlen0⟩ =
          bal.get ⟨0, hi⟩ := by
        have h1 : (setValAt bal (bal.length - 1) (lastVal eq))[0]? = bal[0]? :=
          setValAt_getElem_ne bal (bal.length - 1) 0 (lastVal eq) hlast
        rw [List.getElem?_eq_getElem hlen0, List.getElem?_eq_getElem hi] at h1
        simpa [List.get_eq_getElem] using h1
      rw [hval]
      simp
  · rw [setValAt_getElem_ne _ 0 i _ (fun h => h0 h.symm)]
    by_cases hlast : i = bal.length - 1
    · subst hlast
      rw [setValAt_getElem_self bal (bal.length - 1) (lastVal eq) hi]
      simp [if_neg h0]
    · rw [setValAt_getElem_ne bal (bal.length - 1) i _ (fun h => hlast h.symm)]
      rw [List.getElem?_eq_getElem hi]
      simp [if_neg h0, if_neg hlast, List.get_eq_getElem]

/-- C10: `BacktestResult.__add__` mutates both of its operands before
building the merged result: after the call, the first and last entries of
`self.balance_quote` and of `other.balance_quote` hold the corresponding
`equity_quote` values (keys and all other entries unchanged), so merging two
ledgers is not side-effect-free on the input ledgers.  The post-call operand
states are the first two components of the modelled return triple. -/
theorem c10_add_mutates_operand_balances (a b : BacktestResult)
    (hlog : a.logarithmic = b.logarithmic)
    (hba : a.balance_quote ≠ []) (hea : a.equity_quote ≠ [])
    (hbb : b.balance_quote ≠ []) (heb : b.equity_quote ≠ []) :
    ∃ a' b' m, addResult a b = .ok (a', b', m) ∧
      (∀ i (hi : i < a.balance_quote.length),
        a'.balance_quote[i]? = some
          ((a.balance_quote.get ⟨i, hi⟩).fst,
            if i = 0 then headVal a.equity_quote
            else if i = a.balance_quote.length - 1 then lastVal a.equity_quote
            else (a.balance_quote.get ⟨i, hi⟩).snd)) ∧
      (∀ i (hi : i < b.balance_quote.length),
        b'.balance_quote[i]? = some
          ((b.balance_quote.get ⟨i, hi⟩).fst,
            if i = 0 then headVal b.equity_quote
            else if i = b.balance_quote.length - 1 then lastVal b.equity_quote
            else (b.balance_quote.get ⟨i, hi⟩).snd)) := by
  refine ⟨_, _, _, addResult_ok a b hlog hba hea hbb heb, ?_, ?_⟩
  · intro i hi
    exact forceSeries_getElem a.balance_quote a.equity_quote i hi
  · intro i hi
    exact forceSeries_getElem b.balance_quote b.equity_quote i hi

/-- Witness for C10 at the concrete two-entry shard ledgers `c10A`, `c10B`. -/
theorem c10_witness :
    ∃ a' b' m, addResult c10A c10B = .ok (a', b', m) ∧
      (∀ i (hi : i < c10A.balance_quote.length),
        a'.balance_quote[i]? = some
          ((c10A.balance_quote.get ⟨i, hi⟩).fst,
            if i = 0 then headVal c10A.equity_quote
            else if i = c10A.balance_quote.length - 1 then lastVal c10A.equity_quote
            else (c10A.balance_quote.get ⟨i, hi⟩).snd)) ∧
      (∀ i (hi : i < c10B.balance_quote.length),
        b'.balance_quote[i]? = some
          ((c10B.balance_quote.get ⟨i, hi⟩).fst,
            if i = 0 then headVal c10B.equity_quote
            else if i = c10B.balance_quote.length - 1 then lastVal c10B.equity_quote
            else (c10B.balance_quote.get ⟨i, hi⟩).snd)) :=
  c10_add_mutates_operand_balances c10A c10B rfl (by decide) (by decide)
    (by decide) (by decide)

/-- Helper: writing position `n + 1` commutes with `cons`. -/
theorem setValAt_cons_succ (x : ℕ × Option ℚ) (xs : Series) (n : ℕ)
    (v : Option ℚ) : setValAt (x :: xs) (n + 1) v = x :: setValAt xs n v := by
  unfold setValAt
  rw [List.get?_cons_succ]
  cases h : xs.get? n <;> simp [h]

/-- Helper: label lookup after overwriting the first position. -/
theorem seriesLookup_setFirst (bal : Series) (v : Option ℚ) (k : ℕ) :
    seriesLookup (setValAt bal 0 v) k =
      if firstKey bal = some k then some v else seriesLookup bal k := by
  cases bal with
  | nil => simp [setValAt, firstKey, seriesLookup]
  | cons kv0 rest =>
    have hset : setValAt (kv0 :: rest) 0 v = (kv0.fst, v) :: rest := by
      simp [setValAt]
    rw [hset]
    by_cases hk : kv0.fst = k
    · simp [seriesLookup, firstKey, hk]
    · simp [seriesLookup, firstKey, hk]

/-- Helper: label lookup after overwriting the last position, on a
duplicate-free index. -/
theorem seriesLookup_setLast (bal : Series) (v : Option ℚ) (k : ℕ)
    (hnodup : (seriesKeys bal).Nodup) :
    seriesLookup (setValAt bal (bal.length - 1) v) k =
      if lastKey bal = some k then some v else seriesLookup bal k := by
  induction bal with
  | nil => simp [setValAt, lastKey, seriesLookup]
  | cons kv0 rest ih =>
    cases rest with
    | nil =>
      have hset : setValAt [kv0] 0 v = [(kv0.fst, v)] := by simp [setValAt]
      simp only [List.length_cons, List.length_nil, Nat.zero_add, Nat.sub_self,
        hset]
      by_cases hk : kv0.fst = k
      · simp [seriesLookup, lastKey, hk]
      · simp [seriesLookup, lastKey, hk]
    | cons kv1 rest' =>
      have hnodup' : (kv0.fst :: seriesKeys (kv1 :: rest')).Nodup := by
        simpa only [seriesKeys, List.map_cons] using hnodup
      have hnd : (seriesKeys (kv1 :: rest')).Nodup := hnodup'.of_cons
      have hknotin : kv0.fst ∉ seriesKeys (kv1 :: rest') :=
        (List.nodup_cons.mp hnodup').1
      have hn : (kv0 :: kv1 :: rest').length - 1 =
          ((kv1 :: rest').length - 1) + 1 := by simp
      rw [hn, setValAt_cons_succ]
      have hlast : lastKey (kv0 :: kv1 :: rest') = lastKey (kv1 :: rest') := by
        simp [lastKey]
      rw [hlast]
      by_cases hk : kv0.fst = k
      · have hne : lastKey (kv1 :: rest') ≠ some k := by
          intro hcon
          simp only [lastKey] at hcon
          obtain ⟨kv, hkv, hkk⟩ := Option.map_eq_some'.mp hcon
          have hmem := List.mem_of_getLast?_eq_some hkv
          have hkeymem : kv.fst ∈ seriesKeys (kv1 :: rest') :=
            List.mem_map_of_mem Prod.fst hmem
          rw [hkk, ← hk] at hkeymem
          exact hknotin hkeymem
        rw [if_neg hne]
        simp [seriesLookup, hk]
      · have h1 : seriesLookup (kv0 :: setValAt (kv1 :: rest')
            ((kv1 :: rest').length - 1) v) k =
            seriesLookup (setValAt (kv1 :: rest')
              ((kv1 :: rest').length - 1) v) k := by
          simp [seriesLookup, hk]
        have h2 : seriesLookup (kv0 :: kv1 :: rest') k =
            seriesLookup (kv1 :: rest') k := by
          simp [seriesLookup, hk]
        rw [h1, ih hnd, h2]

/-- Helper: overwriting positions preserves the first key. -/
theorem firstKey_setValAt (s : Series) (i : ℕ) (v : Option ℚ) :
    firstKey (setValAt s i v) = firstKey s := by
  cases s with
  | nil => rfl
  | cons kv rest =>
    cases i with
    | zero => simp [setValAt, firstKey]
    | succ n => rw [setValAt_cons_succ]; simp [firstKey]

/-- Helper: the keywise description of the end forcing, on a duplicate-free
index. -/
theorem forceSeries_lookup (bal eq : Series) (k : ℕ)
    (hnodup : (seriesKeys bal).Nodup) :
    seriesLookup (forceSeries bal eq) k = forcedBalanceLookup bal eq k := by
  unfold forceSeries forcedBalanceLookup
  rw [seriesLookup_setFirst, firstKey_setValAt,
    seriesLookup_setLast bal (lastVal eq) k hnodup]

/-- C3 (counterexample): the claim's description of the pre-sum forcing —
"exactly A's balance at its last key and B's balance at its first key are
forced (and no other entries are forced), then reindex to the union,
ffill, bfill, add" — does not match the code: at the concrete two-entry
ledgers `c3A`/`c3B`, the merged `balance_quote` produced by `__add__`
differs from the claim's pipeline at the first and last keys, because the
code also forces A's balance at its *first* key and B's balance at its
*last* key. -/
theorem c3_counterexample :
    (addResult c3A c3B).map (fun t => t.2.2.balance_quote) =
      .ok [(0, some 42), (1, some 52), (2, some 52), (3, some 62)] ∧
    claimC3MergedBalance c3A c3B =
      [(0, some 41), (1, some 52), (2, some 52), (3, some 61)] := by
  constructor
  · norm_num [addResult, c3A, c3B, iatLast, iatFirst, setIatLast, setIatFirst,
      setValAt, add_fbfill, reindex_fill, reindex, unionKeys, insertKey,
      seriesKeys, seriesLookup, ffill, bfill, ffillFrom, addAligned,
      add_fill0, floatEq, bind, Except.bind, Except.map]
  · norm_num [claimC3MergedBalance, c3A, c3B, setValAt, lastVal, headVal,
      add_fbfill, reindex_fill, reindex, unionKeys, insertKey, seriesKeys,
      seriesLookup, ffill, bfill, ffillFrom, addAligned]

/-- C3 (amended): before summing, the code forces *both* ends of *both*
operands' balance Series to the corresponding equity values — A's balance at
its first and last keys to A's equity there, and likewise B's (not only
A-last and B-first) — and then each series is reindexed to the union of the
two key sets, forward-filled, backward-filled and added; the equity curves
are summed the same way without any forcing. -/
theorem c3_amended_force_both_ends (a b : BacktestResult)
    (hlog : a.logarithmic = b.logarithmic)
    (hba : a.balance_quote ≠ []) (hea : a.equity_quote ≠ [])
    (hbb : b.balance_quote ≠ []) (heb : b.equity_quote ≠ [])
    (hna : (seriesKeys a.balance_quote).Nodup)
    (hnb : (seriesKeys b.balance_quote).Nodup) :
    ∃ a' b' m, addResult a b = .ok (a', b', m) ∧
      (∀ k : ℕ, seriesLookup a'.balance_quote k =
        forcedBalanceLookup a.balance_quote a.equity_quote k) ∧
      (∀ k : ℕ, seriesLookup b'.balance_quote k =
        forcedBalanceLookup b.balance_quote b.equity_quote k) ∧
      m.balance_quote = add_fbfill a'.balance_quote b'.balance_quote ∧
      m.equity_quote = add_fbfill a.equity_quote b.equity_quote := by
  refine ⟨_, _, _, addResult_ok a b hlog hba hea hbb heb, ?_, ?_, rfl, rfl⟩
  · intro k
    exact forceSeries_lookup a.balance_quote a.equity_quote k hna
  · intro k
    exact forceSeries_lookup b.balance_quote b.equity_quote k hnb

/-- Witness for the amended C3 at the concrete ledgers `c3A`, `c3B`. -/
theorem c3_witness :
    ∃ a' b' m, addResult c3A c3B = .ok (a', b', m) ∧
      (∀ k : ℕ, seriesLookup a'.balance_quote k =
        forcedBalanceLookup c3A.balance_quote c3A.equity_quote k) ∧
      (∀ k : ℕ, seriesLookup b'.balance_quote k =
        forcedBalanceLookup c3B.balance_quote c3B.equity_quote k) ∧
      m.balance_quote = add_fbfill a'.balance_quote b'.balance_quote ∧
      m.equity_quote = add_fbfill c3A.equity_quote c3B.equity_quote :=
  c3_amended_force_both_ends c3A c3B rfl (by decide) (by decide) (by decide)
    (by decide) (by decide) (by decide)

/-- Helper: `FinishedOrder.__mul__` with a non-negative factor returns the
scaled copy. -/
theorem finishedOrderScale_nonneg (fo : FinishedOrder) (r : ℚ) (h : ¬r < 0) :
    finishedOrderScale fo r = .ok (scaleFinishedOrder fo r) := by
  unfold finishedOrderScale orderScale scaleFinishedOrder
  rw [if_neg h, if_neg h]
  rfl

/-- Helper: elementwise scaling of a finished-order list with a non-negative
factor succeeds and is the pure map. -/
theorem mapM_finishedOrderScale (l : List FinishedOrder) (r : ℚ) (h : ¬r < 0) :
    l.mapM (fun fo => finishedOrderScale fo r) =
      .ok (l.map (fun fo => scaleFinishedOrder fo r)) := by
  induction l with
  | nil => rfl
  | cons fo rest ih =>
    rw [List.mapM_cons, finishedOrderScale_nonneg fo r h, ih]
    rfl

/-- Helper: `BacktestResult.__mul__` with a non-negative factor scales the
four curve Series and every finished order, leaving the rest unchanged. -/
theorem mulResult_ok (res : BacktestResult) (r : ℚ) (h : ¬r < 0) :
    mulResult res r = .ok { res with
      position := seriesScale res.position r,
      position_quote := seriesScale res.position_quote r,
      balance_quote := seriesScale res.balance_quote r,
      equity_quote := seriesScale res.equity_quote r,
      finished_orders :=
        res.finished_orders.map (fun fo => scaleFinishedOrder fo r) } := by
  unfold mulResult
  rw [if_neg h, mapM_finishedOrderScale res.finished_orders r h]
  rfl

/-- Helper: elementwise scaling preserves non-emptiness of a series. -/
theorem seriesScale_ne_nil (s : Series) (r : ℚ) (h : s ≠ []) :
    seriesScale s r ≠ [] := by
  intro hnil
  exact h (List.map_eq_nil_iff.mp hnil)

/-- C4 (amended): the finished orders of a two-shard merge are the direct
concatenation of the two ledgers' finished orders, but they are unscaled
only in linear mode; in logarithmic mode the later ledger's finished orders
are first scaled by the compounding ratio
`r1.equity_quote[-1] / r2.equity_quote[0]` (their `fee`, `order.size`,
`balance_decrement` and `quote_size` are multiplied by the ratio) before
concatenation, while the earlier ledger's orders stay unscaled. -/
theorem c4_finished_orders_concatenation (r1 r2 : BacktestResult) (binit : ℚ)
    (hlog : r1.logarithmic = r2.logarithmic)
    (hb1 : r1.balance_quote ≠ []) (he1 : r1.equity_quote ≠ [])
    (hb2 : r2.balance_quote ≠ []) (he2 : r2.equity_quote ≠ [])
    (hxl : 0 ≤ floatVal (lastVal r1.equity_quote))
    (hyf : 0 ≤ floatVal (headVal r2.equity_quote)) :
    (∃ m, parrarelCombine r1 r2 binit false = .ok m ∧
      m.finished_orders = r1.finished_orders ++ r2.finished_orders) ∧
    (∃ m, parrarelCombine r1 r2 binit true = .ok m ∧
      m.finished_orders = r1.finished_orders ++
        r2.finished_orders.map (fun fo => scaleFinishedOrder fo
          (floatVal (lastVal r1.equity_quote) /
            floatVal (headVal r2.equity_quote)))) := by
  obtain ⟨la, hLa⟩ := Option.ne_none_iff_exists'.mp
    (fun h => he1 (List.getLast?_eq_none_iff.mp h))
  obtain ⟨fb, hFb⟩ := Option.ne_none_iff_exists'.mp
    (fun h => he2 (List.head?_eq_none_iff.mp h))
  have hlv : lastVal r1.equity_quote = la.2 := by simp [lastVal, hLa]
  have hhv : headVal r2.equity_quote = fb.2 := by simp [headVal, hFb]
  have hr : ¬(floatVal la.2 / floatVal fb.2 < 0) := by
    rw [hlv] at hxl
    rw [hhv] at hyf
    exact not_lt.mpr (div_nonneg hxl hyf)
  constructor
  · have hadd := addResult_ok r1 r2 hlog hb1 he1 hb2 he2
    unfold parrarelCombine
    rw [if_neg (by simp : ¬(false = true)), hadd]
    exact ⟨_, rfl, rfl⟩
  · rw [hlv, hhv]
    unfold parrarelCombine logMergeStep
    rw [if_pos rfl]
    simp only [iatLast, iatFirst, hLa, hFb, bind, Except.bind]
    rw [mulResult_ok r2 (floatVal la.2 / floatVal fb.2) hr]
    dsimp only
    have hadd := addResult_ok r1
      { r2 with
        position := seriesScale r2.position (floatVal la.2 / floatVal fb.2),
        position_quote :=
          seriesScale r2.position_quote (floatVal la.2 / floatVal fb.2),
        balance_quote :=
          seriesScale r2.balance_quote (floatVal la.2 / floatVal fb.2),
        equity_quote :=
          seriesScale r2.equity_quote (floatVal la.2 / floatVal fb.2),
        finished_orders := r2.finished_orders.map
          (fun fo => scaleFinishedOrder fo (floatVal la.2 / floatVal fb.2)) }
      hlog hb1 he1
      (seriesScale_ne_nil _ _ hb2) (seriesScale_ne_nil _ _ he2)
    rw [hadd]
    exact ⟨_, rfl, rfl⟩

/-- Witness for the amended C4 at the concrete one-entry shard ledgers
`c4A`, `c4B` (compounding ratio `2/1`). -/
theorem c4_witness :
    (∃ m, parrarelCombine c4A c4B 1 false = .ok m ∧
      m.finished_orders = c4A.finished_orders ++ c4B.finished_orders) ∧
    (∃ m, parrarelCombine c4A c4B 1 true = .ok m ∧
      m.finished_orders = c4A.finished_orders ++
        c4B.finished_orders.map (fun fo => scaleFinishedOrder fo
          (floatVal (lastVal c4A.equity_quote) /
            floatVal (headVal c4B.equity_quote)))) :=
  c4_finished_orders_concatenation c4A c4B 1 rfl (by decide) (by decide)
    (by decide) (by decide) (by decide) (by decide)

/-- C4 (counterexample): in logarithmic merge mode the later shard's
finished orders are *not* carried over with their shard-local values: at
the concrete ledgers `c4A` (last equity `2`) and `c4B` (first equity `1`,
one finished order with `fee = 5`), the merged ledger's only finished order
has `fee = 10` — scaled by the compounding ratio `2` — while the shard-local
fee is `5`. -/
theorem c4_counterexample :
    (parrarelCombine c4A c4B 1 true).map
        (fun m => m.finished_orders.map (fun fo => fo.fee)) = .ok [10] ∧
    c4B.finished_orders.map (fun fo => fo.fee) = [5] := by
  constructor
  · have hLa : c4A.equity_quote.getLast? = some (0, some 2) := by decide
    have hFb : c4B.equity_quote.head? = some (1, some 1) := by decide
    have hr : ¬(floatVal (some 2) / floatVal (some 1) < 0) := by
      norm_num [floatVal]
    unfold parrarelCombine logMergeStep
    rw [if_pos rfl]
    simp only [iatLast, iatFirst, hLa, hFb, bind, Except.bind]
    rw [mulResult_ok c4B (floatVal (some 2) / floatVal (some 1)) hr]
    dsimp only
    rw [addResult_ok c4A
      { c4B with
        position := seriesScale c4B.position (floatVal (some 2) / floatVal (some 1)),
        position_quote :=
          seriesScale c4B.position_quote (floatVal (some 2) / floatVal (some 1)),
        balance_quote :=
          seriesScale c4B.balance_quote (floatVal (some 2) / floatVal (some 1)),
        equity_quote :=
          seriesScale c4B.equity_quote (floatVal (some 2) / floatVal (some 1)),
        finished_orders := c4B.finished_orders.map
          (fun fo => scaleFinishedOrder fo (floatVal (some 2) / floatVal (some 1))) }
      rfl (by decide) (by decide) (by decide) (by decide)]
    dsimp only [Except.map]
    norm_num [c4A, c4B, scaleFinishedOrder, floatVal]
  · norm_num [c4B]

end MergeTheorems

section ValidationTheorems

/-- C9 (counterexample): an invalid split count is *not* collected into the
single aggregated failure: with a structurally valid table and `n_splits = 0`
the call raises `_parrarel`'s standalone `ValueError("n_splits must be not
0")` — not an `ExceptionGroup` — while the aggregated validation-error list
is empty. -/
theorem c9_counterexample :
    checkCall c9df 1 (1/100) 0 4 =
      (.splitValueError "n_splits must be not 0", false) ∧
    validationErrors c9df 1 = [] := by
  constructor
  · norm_num [checkCall, validationErrors, priceErrors, keysMonotonic,
      keysUnique, c9df]
  · norm_num [validationErrors, priceErrors, keysMonotonic, keysUnique, c9df]

/-- C9 (amended): missing required columns, non-monotonic or duplicate index
keys, non-positive prices, OHLC ordering violations and non-positive
`balance_init` are collected into one aggregated failure raised before the
simulation starts, and a non-positive `taker_fee` produces only a non-fatal
warning that never influences the outcome; but an invalid split count `k` is
*not* part of the aggregated failure — it raises a separate `ValueError`
inside the parallel dispatch, after the aggregated validation has passed. -/
theorem c9_aggregated_validation (df : InputDF)
    (balance_init taker_fee taker_fee' : ℚ) (n_splits : ℤ) (cpu_count : ℕ) :
    ((checkCall df balance_init taker_fee n_splits cpu_count).fst =
      (checkCall df balance_init taker_fee' n_splits cpu_count).fst) ∧
    ((checkCall df balance_init taker_fee n_splits cpu_count).snd =
      !(decide (taker_fee > 0))) ∧
    (validationErrors df balance_init ≠ [] →
      (checkCall df balance_init taker_fee n_splits cpu_count).fst =
        .exceptionGroup (validationErrors df balance_init)) ∧
    (validationErrors df balance_init = [] → n_splits = 0 →
      (checkCall df balance_init taker_fee n_splits cpu_count).fst =
        .splitValueError "n_splits must be not 0") := by
  refine ⟨?_, ?_, ?_, ?_⟩
  · unfold checkCall
    by_cases h1 : validationErrors df balance_init = []
    · by_cases h2 : n_splits = 1
      · simp [h1, h2]
      · by_cases h3 : n_splits = 0
        · simp [h1, h2, h3]
        · by_cases h4 : n_splits < -(cpu_count : ℤ)
          · simp [h1, h2, h3, h4]
          · simp [h1, h2, h3, h4]
    · simp [h1]
  · unfold checkCall
    by_cases h1 : validationErrors df balance_init = []
    · by_cases h2 : n_splits = 1
      · simp [h1, h2]
      · by_cases h3 : n_splits = 0
        · simp [h1, h2, h3]
        · by_cases h4 : n_splits < -(cpu_count : ℤ)
          · simp [h1, h2, h3, h4]
          · simp [h1, h2, h3, h4]
    · simp [h1]
  · intro h
    unfold checkCall
    simp [h]
  · intro h1 h0
    unfold checkCall
    simp [h1, h0]

/-- Witness for the amended C9: a non-monotonic index yields the aggregated
`ExceptionGroup` of collected messages, and a valid table with `n_splits = 0`
yields the standalone split `ValueError`. -/
theorem c9_witness :
    (checkCall c9badDf 1 (1/100) 1 4).fst =
      .exceptionGroup (validationErrors c9badDf 1) ∧
    (checkCall c9df 1 (1/100) 0 4).fst =
      .splitValueError "n_splits must be not 0" :=
  ⟨(c9_aggregated_validation c9badDf 1 (1/100) (1/100) 1 4).2.2.1 (by decide),
   (c9_aggregated_validation c9df 1 (1/100) (1/100) 0 4).2.2.2 (by decide) rfl⟩

end ValidationTheorems

end Backtrade
